import Mathlib

/-
Verification of the dg_speech push-to-talk dictation tool.

The development shallowly embeds the Python sources:
  * deepgram_dictation.py : DeepgramTranscriber (streaming session) and
    DictationApp (hotkey handling and orchestration);
  * config_manager.py : ConfigManager (deep-merged configuration with
    dotted-path get/set).

Stateful Python is rendered as explicit state passing; the fallible parts
return Option.  I/O side effects (actual socket writes, clipboard writes,
calls into the transcriber) are recorded in explicit traces so theorems can
speak about what was and was not emitted.
-/

set_option autoImplicit false

namespace DgSpeech

/-! ## Inbound records and the result cell

Embeds `DeepgramTranscriber._on_message` (deepgram_dictation.py lines
223-246).  An inbound websocket message is parsed JSON; the handler reads
`response.get('type')` and `response.get('channel', {}).get('alternatives', [])`.
The result cell is `self.transcription_result : Optional[str]`. -/

/-- One entry of the `alternatives` array of a Deepgram `Results` record.
The handler reads `transcript` (a string, possibly empty; an absent field
behaves like the empty string under Python truthiness) and `confidence`
(used only for logging). -/
structure Alternative where
  transcript : String
  confidence : Rat
deriving Repr, DecidableEq

/-- A parsed inbound record: `type` is `response.get('type')` (`none` when the
key is absent) and `alternatives` is
`response.get('channel', {}).get('alternatives', [])`. -/
structure InboundRecord where
  type : Option String
  alternatives : List Alternative
deriving Repr, DecidableEq

/-- Embedding of `DeepgramTranscriber._on_message` as its action on the result
cell: if the record's type is `Results` and the first alternative carries a
truthy (non-empty) transcript, the cell is assigned that transcript —
unconditionally, whether or not it already held a value; every other record
leaves the cell alone. -/
def onMessage (cell : Option String) (r : InboundRecord) : Option String :=
  if r.type = some "Results" then
    match r.alternatives with
    | [] => cell
    | alt :: _ => if alt.transcript ≠ "" then some alt.transcript else cell
  else cell

/-- The result cell after a sequence of inbound records has been delivered to
`_on_message`, starting from `cell`. -/
def processMessages (cell : Option String) (msgs : List InboundRecord) : Option String :=
  msgs.foldl onMessage cell

/-- A record is significant for the result cell exactly when its type is
`Results` and its first alternative has a non-empty transcript. -/
def isFinalResult (r : InboundRecord) : Bool :=
  decide (r.type = some "Results") &&
    (match r.alternatives with
     | [] => false
     | alt :: _ => decide (alt.transcript ≠ ""))

/-- A `Results` record carrying `t` as the single alternative's transcript. -/
def mkFinal (t : String) : InboundRecord :=
  ⟨some "Results", [⟨t, 1⟩]⟩

/-- An interim record: right type but an empty first-alternative transcript. -/
def mkInterim : InboundRecord :=
  ⟨some "Results", [⟨"", 1⟩]⟩

/-! ## The transcription session

Embeds `DeepgramTranscriber.transcribe_audio` (lines 146-216).  The behaviour
of the remote transport during one session is summarised by an environment:
how the connect phase resolved within the 5-second `connection_event.wait`,
and which inbound records were delivered before the 10-second result-poll
loop observed the cell. -/

/-- How the connect phase resolves within the 5-second
`connection_event.wait(timeout=5)`:
  * `opened`  — `_on_open` fired and set the event;
  * `errored` — a transport error fired `_on_error`, which set the event
    (unblocking the wait) with the connection dead;
  * `silent`  — neither callback fired within 5 seconds, so the wait times
    out and `transcribe_audio` returns `None` at once. -/
inductive ConnectSignal where
  | opened
  | errored
  | silent
deriving Repr, DecidableEq

/-- Outbound frames of the session, in the order the code emits them:
the whole WAV payload as one binary frame, then the `CloseStream` control
message. -/
inductive Frame where
  | binaryAudio
  | closeStream
deriving Repr, DecidableEq

/-- One session's view of the remote transport. `inbound` lists the records
delivered to `_on_message` before the result-poll loop last read the cell
(records arriving after the 10-second timeout are not in it). -/
structure ConnEnv where
  signal : ConnectSignal
  inbound : List InboundRecord
deriving Repr, DecidableEq

/-- Whether `connection_event` is set: `_on_open` and `_on_error` both set it,
a silent connect leaves it clear until the wait times out. -/
def connectionEventSet (env : ConnEnv) : Bool :=
  decide (env.signal ≠ ConnectSignal.silent)

/-- Embedding of `DeepgramTranscriber.transcribe_audio`.  Returns the value
handed back to the caller together with the list of frames actually
transmitted:
  * silent connect — `connection_event.wait(5)` returns false, the method
    returns `None` before any send (lines 193-195);
  * errored connect — the wait is unblocked by `_on_error`, the subsequent
    `ws.send` raises on the dead connection before transmitting anything, the
    `except` handler returns `None` (lines 197-198, 214-216);
  * opened — the payload is sent as one binary frame, then the `CloseStream`
    control message, then the poll loop waits on the cell; the returned value
    is the cell after the delivered records were processed. -/
def transcribe_audio (env : ConnEnv) : Option String × List Frame :=
  match env.signal with
  | ConnectSignal.silent => (none, [])
  | ConnectSignal.errored => (none, [])
  | ConnectSignal.opened =>
      (processMessages none env.inbound, [Frame.binaryAudio, Frame.closeStream])

/-! ## Hotkey handling and orchestration

Embeds `DictationApp` (deepgram_dictation.py lines 258-462).  The mutable
fields touched by the hotkey path are gathered into `AppState`; the
collaborators consulted inside `stop_recording` (recorder output,
configuration values, the transcriber's answer, the user's preview decision)
form a `StopEnv`; the side effects of one `stop_recording` call are recorded
in a `StopResult` trace. -/

/-- Key events as seen by `on_press` / `on_release`: the two Ctrl variants,
Escape, or a character key. -/
inductive Key where
  | ctrl_l
  | ctrl_r
  | esc
  | char (c : Char)
deriving Repr, DecidableEq

/-- The `DictationApp` fields read or written on the hotkey path. -/
structure AppState where
  is_recording : Bool
  ctrl_pressed : Bool
  preview_mode : Bool
  running : Bool
  status : String
  last_transcription : String
deriving Repr, DecidableEq

/-- Result of `DictationApp.start_recording`: the new state, plus whether
`self.recorder.start_recording()` was invoked. -/
structure StartResult where
  state : AppState
  recorderStarted : Bool
deriving Repr, DecidableEq

/-- Embedding of `DictationApp.start_recording` (lines 398-412): a no-op when
already recording; otherwise set `is_recording`, set the status and arm the
recorder.  (Beep and screen redraw are pure side channels and not modelled.) -/
def start_recording (s : AppState) : StartResult :=
  if s.is_recording then ⟨s, false⟩
  else ⟨{ s with is_recording := true, status := "Recording..." }, true⟩

/-- Inputs `DictationApp.stop_recording` obtains from its collaborators:
`audio` and `duration` are what `self.recorder.stop_recording()` returns
(`audio = none` models a `None` payload), `min_recording_duration` is
`self.config.get('min_recording_duration', 0.5)`, `save_transcriptions` is
`self.config.get('save_transcriptions', False)`, `transcription` is what
`self.transcriber.transcribe_audio(audio_data)` would return for this
payload, and `previewAccept` is the decision `show_preview` would report.
The recorder's float duration is modelled exactly as a rational. -/
structure StopEnv where
  audio : Option (List Nat)
  duration : Rat
  min_recording_duration : Rat
  save_transcriptions : Bool
  transcription : Option String
  previewAccept : Bool
deriving Repr, DecidableEq

/-- Observable outcome of one `DictationApp.stop_recording` call: the new
state, every `pyperclip.copy` argument in order, whether
`self.transcriber.transcribe_audio` was invoked, and whether the transcript
was persisted to a file. -/
structure StopResult where
  state : AppState
  clipboardWrites : List String
  transcribeCalled : Bool
  savedToFile : Bool
deriving Repr, DecidableEq

/-- Python truthiness of the recorder's payload: `if audio_data ...` is true
exactly when the payload is present and non-empty. -/
def audioTruthy (audio : Option (List Nat)) : Bool :=
  match audio with
  | none => false
  | some data => decide (data ≠ [])

/-- Embedding of `DictationApp.stop_recording` (lines 414-462): a no-op when
not recording; otherwise clear `is_recording`, and if the payload is truthy
and the duration reaches the configured minimum, transcribe it — a truthy
result updates `last_transcription` and goes through the preview/auto-copy
policy, a falsy result sets the failure status; a short or absent payload is
discarded with the "too short" status. -/
def stop_recording (s : AppState) (env : StopEnv) : StopResult :=
  if ¬s.is_recording then ⟨s, [], false, false⟩
  else
    let s₁ := { s with is_recording := false, status := "Transcribing..." }
    if audioTruthy env.audio ∧ env.duration ≥ env.min_recording_duration then
      match env.transcription with
      | some text =>
        if text ≠ "" then
          let s₂ := { s₁ with last_transcription := text }
          let saved := env.save_transcriptions
          if s₂.preview_mode then
            if env.previewAccept then
              ⟨{ s₂ with status := "Copied!" }, [text], true, saved⟩
            else
              ⟨{ s₂ with status := "Discarded" }, [], true, saved⟩
          else
            ⟨{ s₂ with status := "Copied!" }, [text], true, saved⟩
        else
          ⟨{ s₁ with status := "Transcription failed" }, [], true, false⟩
      | none =>
          ⟨{ s₁ with status := "Transcription failed" }, [], true, false⟩
    else
      ⟨{ s₁ with status := "Recording too short" }, [], false, false⟩

/-- Embedding of `DictationApp.on_press` (lines 364-383): a Ctrl variant
starts recording only when no Ctrl is latched and no recording is active;
`p` toggles preview mode; other keys do nothing.  Returns the new state and
whether the recorder was armed. -/
def on_press (s : AppState) (k : Key) : StartResult :=
  match k with
  | Key.ctrl_l | Key.ctrl_r =>
      if ¬s.ctrl_pressed ∧ ¬s.is_recording then
        start_recording { s with ctrl_pressed := true }
      else ⟨s, false⟩
  | Key.char c =>
      if c.toLower = 'p' then ⟨{ s with preview_mode := ¬s.preview_mode }, false⟩
      else ⟨s, false⟩
  | Key.esc => ⟨s, false⟩

/-- Embedding of `DictationApp.on_release` (lines 385-396): a Ctrl release
stops recording only when a Ctrl press is latched and a recording is active;
Escape clears `running`; other keys do nothing. -/
def on_release (s : AppState) (k : Key) (env : StopEnv) : StopResult :=
  match k with
  | Key.ctrl_l | Key.ctrl_r =>
      if s.ctrl_pressed ∧ s.is_recording then
        stop_recording { s with ctrl_pressed := false } env
      else ⟨s, [], false, false⟩
  | Key.esc => ⟨{ s with running := false }, [], false, false⟩
  | Key.char _ => ⟨s, [], false, false⟩

/-! ## Configuration

Embeds `ConfigManager` (config_manager.py).  Python dicts holding JSON data
become association lists over `JValue`; lookup and in-place key assignment
use first-occurrence semantics, which coincides with Python dicts (whose
keys are unique). -/

/-- JSON-like values as stored in the configuration dictionaries. -/
inductive JValue where
  | null
  | bool (b : Bool)
  | num (q : Rat)
  | str (s : String)
  | obj (fields : List (String × JValue))
deriving Repr

/-- First-occurrence lookup in an association list (Python `d[k]` / `k in d`). -/
def lookup : List (String × JValue) → String → Option JValue
  | [], _ => none
  | (k', v) :: rest, k => if k' = k then some v else lookup rest k

/-- Assignment `d[k] = v` on an association list: replaces the first binding
of `k`, or appends one when `k` is absent. -/
def setKey : List (String × JValue) → String → JValue → List (String × JValue)
  | [], k, v => [(k, v)]
  | (k', v') :: rest, k, v =>
      if k' = k then (k, v) :: rest else (k', v') :: setKey rest k v

mutual

/-- Merging decision of `ConfigManager._deep_update` for one key: when both
the existing and the incoming value are dicts, recurse; otherwise the
incoming value replaces the existing one. -/
def deepUpdateVal : JValue → JValue → JValue
  | JValue.obj bo, JValue.obj uo => JValue.obj (deepUpdateObj bo uo)
  | _, u => u

/-- Embedding of `ConfigManager._deep_update` (config_manager.py lines
199-210): for each key of the update dict, merge sub-dicts recursively and
overwrite everything else; keys absent from the update dict are untouched. -/
def deepUpdateObj : List (String × JValue) → List (String × JValue) → List (String × JValue)
  | base, [] => base
  | base, (k, v) :: rest =>
      let nv := match lookup base k with
        | some bv => deepUpdateVal bv v
        | none => v
      deepUpdateObj (setKey base k nv) rest

end

/-- The value `_deep_update` leaves at a key of the update dict, as a
function of the base's binding there: both dicts merge recursively,
everything else is the update's value. -/
def mergeVal (b : Option JValue) (v : JValue) : JValue :=
  match b with
  | some bv => deepUpdateVal bv v
  | none => v

/-- The `ConfigManager.DEFAULT_CONFIG` literal (config_manager.py lines
20-41). -/
def DEFAULT_CONFIG : List (String × JValue) :=
  [("api_key", JValue.str ""),
   ("push_to_talk_key", JValue.str "ctrl"),
   ("preview_mode", JValue.bool true),
   ("auto_punctuation", JValue.bool true),
   ("model", JValue.str "nova-3-medical"),
   ("language", JValue.str "en-US"),
   ("save_transcriptions", JValue.bool false),
   ("transcription_folder", JValue.str "./transcriptions"),
   ("sound_feedback", JValue.bool true),
   ("min_recording_duration", JValue.num (1/2)),
   ("max_recording_duration", JValue.num 300),
   ("logging", JValue.obj
     [("enabled", JValue.bool false),
      ("level", JValue.str "INFO"),
      ("file", JValue.str "./logs/dictation.log"),
      ("max_size_mb", JValue.num 10),
      ("keep_days", JValue.num 7),
      ("console_output", JValue.bool false),
      ("privacy_mode", JValue.bool true)])]

/-- Embedding of `ConfigManager.load_config` (lines 64-82): with a readable,
parseable file the defaults are copied and deep-updated with the file's
contents; with no file (or an unreadable one) the defaults are returned. -/
def load_config (file : Option (List (String × JValue))) : List (String × JValue) :=
  match file with
  | some user => deepUpdateObj DEFAULT_CONFIG user
  | none => DEFAULT_CONFIG

/-- Embedding of Python's `key.split('.')` over the characters of the key:
splits on every dot and keeps empty pieces, so the result is never empty
(`"".split('.') == [""]`). -/
def splitDotsAux : List Char → List Char → List String
  | [], acc => [String.mk acc.reverse]
  | c :: cs, acc =>
      if c = '.' then String.mk acc.reverse :: splitDotsAux cs []
      else splitDotsAux cs (c :: acc)

/-- Dotted-path components of a configuration key. -/
def splitDots (s : String) : List String :=
  splitDotsAux s.toList []

/-- Traversal of `ConfigManager.get` (lines 104-123) along the already-split
key: descend through dicts, returning `none` as soon as a component is
missing or the current value is not a dict (the caller then substitutes the
default). -/
def getPath : JValue → List String → Option JValue
  | v, [] => some v
  | JValue.obj d, k :: ks =>
      match lookup d k with
      | some v => getPath v ks
      | none => none
  | _, _ :: _ => none

/-- Embedding of `ConfigManager.get`: dotted-path lookup with a default. -/
def ConfigManager.get (config : List (String × JValue)) (key : String)
    (default : JValue) : JValue :=
  (getPath (JValue.obj config) (splitDots key)).getD default

/-- Traversal of `ConfigManager.set` (lines 125-140) along the already-split
key: walk the leading components, creating `{}` for an absent one; assign
the value at the last component.  Descending into an existing non-dict value
makes the subsequent assignment raise in Python, modelled as `none`. -/
def setPath : List (String × JValue) → List String → JValue → Option (List (String × JValue))
  | _, [], _ => none
  | d, [k], v => some (setKey d k v)
  | d, k :: k' :: ks, v =>
      match lookup d k with
      | some (JValue.obj sd) =>
          (setPath sd (k' :: ks) v).map (fun sd' => setKey d k (JValue.obj sd'))
      | some _ => none
      | none =>
          (setPath [] (k' :: ks) v).map (fun sd' => setKey d k (JValue.obj sd'))

/-- Embedding of `ConfigManager.set`: dotted-path assignment, creating
missing intermediate dicts. -/
def ConfigManager.set (config : List (String × JValue)) (key : String)
    (v : JValue) : Option (List (String × JValue)) :=
  setPath config (splitDots key) v

/-- The hypothesis of the set/get round trip: along the split key, every
intermediate component is either absent or bound to a dict. -/
def pathOk : List (String × JValue) → List String → Bool
  | _, [] => false
  | _, [_] => true
  | d, k :: k' :: ks =>
      match lookup d k with
      | some (JValue.obj sd) => pathOk sd (k' :: ks)
      | some _ => false
      | none => true

/-! ## Lemmas about the result cell -/

/-- A record that is not a final result leaves the result cell unchanged. -/
theorem onMessage_not_final (cell : Option String) (r : InboundRecord)
    (h : isFinalResult r = false) : onMessage cell r = cell := by
  obtain ⟨ty, alts⟩ := r
  by_cases hty : ty = some "Results"
  · cases alts with
    | nil => simp [onMessage, hty]
    | cons alt rest =>
        have ht : alt.transcript = "" := by
          simpa [isFinalResult, hty] using h
        simp [onMessage, hty, ht]
  · simp [onMessage, hty]

/-- The handler never stores the empty string in the result cell. -/
theorem onMessage_ne_empty (cell : Option String) (r : InboundRecord)
    (hc : cell ≠ some "") : onMessage cell r ≠ some "" := by
  obtain ⟨ty, alts⟩ := r
  by_cases hty : ty = some "Results"
  · cases alts with
    | nil => simpa [onMessage, hty] using hc
    | cons alt rest =>
        by_cases ht : alt.transcript = ""
        · simpa [onMessage, hty, ht] using hc
        · simp [onMessage, hty, ht]
  · simpa [onMessage, hty] using hc

/-- A sequence of records none of which is a final result leaves the cell
unchanged. -/
theorem processMessages_not_final :
    ∀ (msgs : List InboundRecord) (cell : Option String),
      (∀ r ∈ msgs, isFinalResult r = false) → processMessages cell msgs = cell
  | [], _, _ => rfl
  | r :: rest, cell, h => by
      have h1 : onMessage cell r = cell :=
        onMessage_not_final cell r (h r (List.mem_cons_self r rest))
      have h2 : processMessages cell rest = cell :=
        processMessages_not_final rest cell (fun x hx => h x (List.mem_cons_of_mem r hx))
      simpa [processMessages, h1] using h2

/-- The cell never ends up holding the empty string. -/
theorem processMessages_ne_empty :
    ∀ (msgs : List InboundRecord) (cell : Option String),
      cell ≠ some "" → processMessages cell msgs ≠ some ""
  | [], _, hc => hc
  | r :: rest, cell, hc =>
      processMessages_ne_empty rest (onMessage cell r) (onMessage_ne_empty cell r hc)

/-! ## Claim theorems: the transcription session -/

/-- Claim C1, as stated, is false of the code: `_on_message` assigns the
result cell unconditionally, so a second final record with a different
non-empty transcript overwrites an already-captured result instead of being
ignored — after delivering final records with transcripts `alpha` then
`beta`, the cell holds `beta`, not the first transcript `alpha`. -/
theorem C1_write_once_counterexample :
    processMessages (some "alpha") [mkFinal "beta"] = some "beta" ∧
    processMessages none [mkFinal "alpha", mkFinal "beta"] ≠ some "alpha" := by
  exact ⟨rfl, by decide⟩

/-- Claim C1 amended: the result cell is last-writer-wins, not write-once.
Every final record with a non-empty first-alternative transcript overwrites
the cell, so of two successive final records carrying different non-empty
transcripts the second is retained; records that are not final results with
a non-empty transcript leave the cell unchanged. -/
theorem C1_last_writer_wins (cell : Option String) (t₁ t₂ : String)
    (h₁ : t₁ ≠ "") (h₂ : t₂ ≠ "") (r : InboundRecord)
    (hr : isFinalResult r = false) :
    processMessages cell [mkFinal t₁, mkFinal t₂] = some t₂ ∧
    onMessage cell r = cell := by
  refine ⟨?_, onMessage_not_final cell r hr⟩
  simp [processMessages, onMessage, mkFinal, h₁, h₂]

/-- Witness for the amended claim C1 at concrete inputs. -/
theorem C1_last_writer_wins_witness :
    processMessages none [mkFinal "alpha", mkFinal "beta"] = some "beta" ∧
    onMessage none mkInterim = none :=
  C1_last_writer_wins none "alpha" "beta" (by decide) (by decide) mkInterim (by decide)

/-- Claim C2: `transcribe_audio` never reports the empty string — the cell
only ever receives non-empty transcripts — and a session whose delivered
records contain no final result (only interim records) resolves past the
result timeout with `none`, the explicit absence-of-result signal, not with
empty-string success. -/
theorem C2_result_resolution (env : ConnEnv) :
    (transcribe_audio env).1 ≠ some "" ∧
    (env.signal = ConnectSignal.opened →
      (∀ r ∈ env.inbound, isFinalResult r = false) →
      (transcribe_audio env).1 = none) := by
  obtain ⟨sig, inbound⟩ := env
  constructor
  · cases sig with
    | opened =>
        exact processMessages_ne_empty inbound none (by simp)
    | errored => simp [transcribe_audio]
    | silent => simp [transcribe_audio]
  · intro hs hall
    cases sig with
    | opened =>
        simpa [transcribe_audio] using processMessages_not_final inbound none hall
    | errored => simp at hs
    | silent => simp at hs

/-- Witness for claim C2: an interim-only session returns `none`. -/
theorem C2_result_resolution_witness :
    (transcribe_audio ⟨ConnectSignal.opened, [mkInterim]⟩).1 = none :=
  (C2_result_resolution ⟨ConnectSignal.opened, [mkInterim]⟩).2 rfl (by decide)

/-- Claim C3: when the connect phase stays silent for the whole 5-second
wait, `transcribe_audio` returns no result and transmits nothing — neither
the binary audio payload nor the `CloseStream` control message. -/
theorem C3_connect_timeout (env : ConnEnv)
    (h : env.signal = ConnectSignal.silent) :
    (transcribe_audio env).1 = none ∧ (transcribe_audio env).2 = [] := by
  obtain ⟨sig, inbound⟩ := env
  cases sig with
  | silent => simp [transcribe_audio]
  | opened => simp at h
  | errored => simp at h

/-- Witness for claim C3 at a concrete silent-connect environment. -/
theorem C3_connect_timeout_witness :
    (transcribe_audio ⟨ConnectSignal.silent, []⟩).1 = none ∧
    (transcribe_audio ⟨ConnectSignal.silent, []⟩).2 = [] :=
  C3_connect_timeout ⟨ConnectSignal.silent, []⟩ rfl

/-- Claim C4: a transport error in a non-terminal state resolves the session
with no result.  An error during the connect phase sets `connection_event`
(unblocking the waiting caller), and the session returns `none` having
transmitted nothing; an error during the result wait leaves a session that
received no final record, which likewise resolves to `none` at the result
timeout. -/
theorem C4_transport_error (env : ConnEnv) :
    (env.signal = ConnectSignal.errored →
      connectionEventSet env = true ∧
      (transcribe_audio env).1 = none ∧ (transcribe_audio env).2 = []) ∧
    (env.signal = ConnectSignal.opened →
      (∀ r ∈ env.inbound, isFinalResult r = false) →
      (transcribe_audio env).1 = none) := by
  obtain ⟨sig, inbound⟩ := env
  constructor
  · intro hs
    cases sig with
    | errored => simp [transcribe_audio, connectionEventSet]
    | opened => simp at hs
    | silent => simp at hs
  · intro hs hall
    cases sig with
    | opened =>
        simpa [transcribe_audio] using processMessages_not_final inbound none hall
    | errored => simp at hs
    | silent => simp at hs

/-- Witness for claim C4 at a concrete errored-connect environment. -/
theorem C4_transport_error_witness :
    connectionEventSet ⟨ConnectSignal.errored, []⟩ = true ∧
    (transcribe_audio ⟨ConnectSignal.errored, []⟩).1 = none ∧
    (transcribe_audio ⟨ConnectSignal.errored, []⟩).2 = [] :=
  (C4_transport_error ⟨ConnectSignal.errored, []⟩).1 rfl

/-- Claim C5: once the connection confirms readiness, the session transmits
exactly two frames, the whole binary audio payload first and the
`CloseStream` control message second — so the control message is never
before the payload and never omitted when the payload is sent. -/
theorem C5_send_order (env : ConnEnv)
    (h : env.signal = ConnectSignal.opened) :
    (transcribe_audio env).2 = [Frame.binaryAudio, Frame.closeStream] := by
  obtain ⟨sig, inbound⟩ := env
  cases sig with
  | opened => simp [transcribe_audio]
  | errored => simp at h
  | silent => simp at h

/-- Witness for claim C5 at a concrete opened environment. -/
theorem C5_send_order_witness :
    (transcribe_audio ⟨ConnectSignal.opened, [mkFinal "hello"]⟩).2 =
      [Frame.binaryAudio, Frame.closeStream] :=
  C5_send_order ⟨ConnectSignal.opened, [mkFinal "hello"]⟩ rfl

/-! ## Claim theorems: hotkey handling and orchestration -/

/-- Claim C6: `start_recording` while already recording is a no-op (state
unchanged, recorder not armed); `stop_recording` while not recording is a
no-op (state unchanged, no transcription, no clipboard write); a Ctrl
release without the latch set produces no command; and pressing either Ctrl
variant while the latch is already set produces no duplicate start. -/
theorem C6_idempotent_controls (s : AppState) (env : StopEnv) (k : Key)
    (hk : k = Key.ctrl_l ∨ k = Key.ctrl_r) :
    (s.is_recording = true → start_recording s = ⟨s, false⟩) ∧
    (s.is_recording = false → stop_recording s env = ⟨s, [], false, false⟩) ∧
    (s.ctrl_pressed = false → on_release s k env = ⟨s, [], false, false⟩) ∧
    (s.ctrl_pressed = true → on_press s k = ⟨s, false⟩) := by
  refine ⟨?_, ?_, ?_, ?_⟩
  · intro h
    simp [start_recording, h]
  · intro h
    simp [stop_recording, h]
  · intro h
    rcases hk with rfl | rfl <;> simp [on_release, h]
  · intro h
    rcases hk with rfl | rfl <;> simp [on_press, h]

/-- Witness for claim C6: with the latch set and a recording active, both a
repeated start and a second Ctrl-variant press leave the state untouched. -/
theorem C6_idempotent_controls_witness :
    start_recording ⟨true, true, true, true, "Recording...", ""⟩ =
      ⟨⟨true, true, true, true, "Recording...", ""⟩, false⟩ ∧
    on_press ⟨true, true, true, true, "Recording...", ""⟩ Key.ctrl_r =
      ⟨⟨true, true, true, true, "Recording...", ""⟩, false⟩ :=
  ⟨(C6_idempotent_controls ⟨true, true, true, true, "Recording...", ""⟩
      ⟨none, 0, 1/2, false, none, false⟩ Key.ctrl_r (Or.inr rfl)).1 rfl,
   (C6_idempotent_controls ⟨true, true, true, true, "Recording...", ""⟩
      ⟨none, 0, 1/2, false, none, false⟩ Key.ctrl_r (Or.inr rfl)).2.2.2 rfl⟩

/-- Claim C7: on stop, a capture whose duration is strictly below the
configured minimum is discarded — the transcriber is never invoked, nothing
is written to the clipboard and the status reads "Recording too short" —
while a present (truthy) payload of sufficient duration is handed to the
transcriber. -/
theorem C7_min_duration (s : AppState) (env : StopEnv)
    (h : s.is_recording = true) :
    (env.duration < env.min_recording_duration →
      (stop_recording s env).transcribeCalled = false ∧
      (stop_recording s env).clipboardWrites = [] ∧
      (stop_recording s env).state.status = "Recording too short") ∧
    (audioTruthy env.audio = true → env.duration ≥ env.min_recording_duration →
      (stop_recording s env).transcribeCalled = true) := by
  constructor
  · intro hlt
    have hnot : ¬(audioTruthy env.audio = true ∧
        env.duration ≥ env.min_recording_duration) := by
      rintro ⟨-, hge⟩
      exact absurd hge (not_le.mpr hlt)
    simp [stop_recording, h, hnot]
  · intro haudio hge
    have hcond : audioTruthy env.audio = true ∧
        env.duration ≥ env.min_recording_duration := ⟨haudio, hge⟩
    cases ht : env.transcription with
    | none => simp [stop_recording, h, hcond, ht]
    | some text =>
        by_cases hne : text = "" <;>
          by_cases hacc : env.previewAccept = true <;>
          by_cases hp : s.preview_mode = true <;>
          simp [stop_recording, h, hcond, ht, hne, hacc, hp]

/-- Witness for claim C7: a 0.3 s capture against the 0.5 s default minimum
is discarded without a transcription call, while a 1 s capture is handed to
the transcriber. -/
theorem C7_min_duration_witness :
    ((stop_recording ⟨true, true, true, true, "Ready", ""⟩
        ⟨some [1], 3/10, 1/2, false, some "hello", false⟩).transcribeCalled = false ∧
      (stop_recording ⟨true, true, true, true, "Ready", ""⟩
        ⟨some [1], 3/10, 1/2, false, some "hello", false⟩).clipboardWrites = [] ∧
      (stop_recording ⟨true, true, true, true, "Ready", ""⟩
        ⟨some [1], 3/10, 1/2, false, some "hello", false⟩).state.status =
        "Recording too short") ∧
    (stop_recording ⟨true, true, true, true, "Ready", ""⟩
        ⟨some [1], 1, 1/2, false, some "hello", false⟩).transcribeCalled = true :=
  ⟨(C7_min_duration ⟨true, true, true, true, "Ready", ""⟩
      ⟨some [1], 3/10, 1/2, false, some "hello", false⟩ rfl).1 (by norm_num),
   (C7_min_duration ⟨true, true, true, true, "Ready", ""⟩
      ⟨some [1], 1, 1/2, false, some "hello", false⟩ rfl).2 (by decide) (by norm_num)⟩

/-- Claim C9: with a transcription result present, preview-mode discard
leaves the clipboard unwritten while `last_transcription` is still updated
to the new text; preview-mode accept writes the text to the clipboard; and
with preview mode off the text is written to the clipboard unconditionally. -/
theorem C9_preview_policy (s : AppState) (env : StopEnv) (t : String)
    (hrec : s.is_recording = true)
    (haudio : audioTruthy env.audio = true)
    (hdur : env.duration ≥ env.min_recording_duration)
    (ht : env.transcription = some t) (hne : t ≠ "") :
    (s.preview_mode = true → env.previewAccept = false →
      (stop_recording s env).clipboardWrites = [] ∧
      (stop_recording s env).state.last_transcription = t) ∧
    (s.preview_mode = true → env.previewAccept = true →
      (stop_recording s env).clipboardWrites = [t] ∧
      (stop_recording s env).state.last_transcription = t) ∧
    (s.preview_mode = false →
      (stop_recording s env).clipboardWrites = [t] ∧
      (stop_recording s env).state.last_transcription = t) := by
  have hcond : audioTruthy env.audio = true ∧
      env.duration ≥ env.min_recording_duration := ⟨haudio, hdur⟩
  refine ⟨?_, ?_, ?_⟩ <;> intro hp
  · intro hacc
    simp [stop_recording, hrec, hcond, ht, hne, hp, hacc]
  · intro hacc
    simp [stop_recording, hrec, hcond, ht, hne, hp, hacc]
  · simp [stop_recording, hrec, hcond, ht, hne, hp]

/-- Witness for claim C9: a discarded preview leaves the clipboard trace
empty but records the text for display; auto mode writes the clipboard. -/
theorem C9_preview_policy_witness :
    ((stop_recording ⟨true, true, true, true, "Ready", ""⟩
        ⟨some [1], 1, 1/2, false, some "hello", false⟩).clipboardWrites = [] ∧
      (stop_recording ⟨true, true, true, true, "Ready", ""⟩
        ⟨some [1], 1, 1/2, false, some "hello", false⟩).state.last_transcription =
        "hello") ∧
    (stop_recording ⟨true, true, false, true, "Ready", ""⟩
        ⟨some [1], 1, 1/2, false, some "hello", false⟩).clipboardWrites = ["hello"] :=
  ⟨(C9_preview_policy ⟨true, true, true, true, "Ready", ""⟩
      ⟨some [1], 1, 1/2, false, some "hello", false⟩ "hello" rfl (by decide)
      (by norm_num) rfl (by decide)).1 rfl rfl,
   ((C9_preview_policy ⟨true, true, false, true, "Ready", ""⟩
      ⟨some [1], 1, 1/2, false, some "hello", false⟩ "hello" rfl (by decide)
      (by norm_num) rfl (by decide)).2.2 rfl).1⟩

/-! ## Lemmas about the configuration dictionaries -/

/-- Looking up the key just assigned yields the assigned value. -/
theorem lookup_setKey_self (l : List (String × JValue)) (k : String) (v : JValue) :
    lookup (setKey l k v) k = some v := by
  induction l with
  | nil => simp [setKey, lookup]
  | cons p rest ih =>
      obtain ⟨k', v'⟩ := p
      by_cases h : k' = k <;> simp [setKey, lookup, h, ih]

/-- Assigning one key does not disturb the binding of another. -/
theorem lookup_setKey_ne (l : List (String × JValue)) (kset klook : String)
    (v : JValue) (h : kset ≠ klook) :
    lookup (setKey l kset v) klook = lookup l klook := by
  induction l with
  | nil => simp [setKey, lookup, h]
  | cons p rest ih =>
      obtain ⟨k', v'⟩ := p
      by_cases h' : k' = kset
      · subst h'
        simp [setKey, lookup, h]
      · simp [setKey, lookup, h', ih]

/-- Keys absent from the update dict keep their base binding under
`_deep_update`. -/
theorem lookup_deepUpdateObj_not_mem :
    ∀ (user base : List (String × JValue)) (k : String),
      k ∉ user.map Prod.fst →
      lookup (deepUpdateObj base user) k = lookup base k
  | [], _, _, _ => rfl
  | (k₁, v₁) :: rest, base, k, h => by
      have h1 : k ≠ k₁ := by
        intro he
        exact h (by simp [he])
      have h2 : k ∉ rest.map Prod.fst := by
        intro he
        exact h (by simp [he])
      rw [deepUpdateObj]
      rw [lookup_deepUpdateObj_not_mem rest _ k h2]
      exact lookup_setKey_ne _ _ _ _ (fun he => h1 he.symm)

/-- Unfolding of `_deep_update` at a cons, phrased through `mergeVal`. -/
theorem deepUpdateObj_cons (base : List (String × JValue)) (k : String)
    (v : JValue) (rest : List (String × JValue)) :
    deepUpdateObj base ((k, v) :: rest) =
      deepUpdateObj (setKey base k (mergeVal (lookup base k) v)) rest := by
  rw [deepUpdateObj]
  cases lookup base k <;> rfl

/-- A key bound in the update dict (whose keys are unique, as Python dict
keys are) ends up bound to the `_deep_update` merge of its base and update
values: sub-dicts merge recursively, anything else is overwritten. -/
theorem lookup_deepUpdateObj_mem :
    ∀ (user base : List (String × JValue)) (k : String) (v : JValue),
      (user.map Prod.fst).Nodup → (k, v) ∈ user →
      lookup (deepUpdateObj base user) k = some (mergeVal (lookup base k) v)
  | [], _, _, _, _, hmem => absurd hmem (List.not_mem_nil _)
  | (k₁, v₁) :: rest, base, k, v, hnd, hmem => by
      obtain ⟨hk₁, hndr⟩ := List.nodup_cons.mp hnd
      rw [deepUpdateObj_cons]
      rcases List.mem_cons.mp hmem with heq | hmemr
      · simp only [Prod.mk.injEq] at heq
        obtain ⟨rfl, rfl⟩ := heq
        rw [lookup_deepUpdateObj_not_mem rest _ k hk₁, lookup_setKey_self]
      · have hkmem : k ∈ rest.map Prod.fst :=
          List.mem_map.mpr ⟨(k, v), hmemr, rfl⟩
        have hkne : k₁ ≠ k := fun he => hk₁ (he ▸ hkmem)
        rw [lookup_deepUpdateObj_mem rest _ k v hndr hmemr,
          lookup_setKey_ne _ _ _ _ hkne]

/-- The split of a non-empty path starting from an empty dict is always
admissible: every component is absent. -/
theorem pathOk_nil_of_ne_nil : ∀ (ks : List String), ks ≠ [] → pathOk [] ks = true
  | [], h => absurd rfl h
  | [_], _ => rfl
  | _ :: _ :: _, _ => rfl

/-- Along an admissible path, `setPath` succeeds and `getPath` immediately
afterwards finds the assigned value. -/
theorem setPath_getPath :
    ∀ (ks : List String) (d : List (String × JValue)) (v : JValue),
      pathOk d ks = true →
      ∃ d', setPath d ks v = some d' ∧ getPath (JValue.obj d') ks = some v
  | [], d, v, h => by simp [pathOk] at h
  | [k], d, v, _ => by
      refine ⟨setKey d k v, rfl, ?_⟩
      simp [getPath, lookup_setKey_self]
  | k :: k' :: ks, d, v, h => by
      rw [pathOk] at h
      cases hl : lookup d k with
      | none =>
          obtain ⟨sd', h1, h2⟩ :=
            setPath_getPath (k' :: ks) [] v (pathOk_nil_of_ne_nil _ (by simp))
          refine ⟨setKey d k (JValue.obj sd'), ?_, ?_⟩
          · simp [setPath, hl, h1]
          · rw [getPath, lookup_setKey_self]
            exact h2
      | some bv =>
          rw [hl] at h
          cases bv with
          | obj sd =>
              obtain ⟨sd', h1, h2⟩ := setPath_getPath (k' :: ks) sd v h
              refine ⟨setKey d k (JValue.obj sd'), ?_, ?_⟩
              · simp [setPath, hl, h1]
              · rw [getPath, lookup_setKey_self]
                exact h2
          | null => simp at h
          | bool b => simp at h
          | num q => simp at h
          | str s => simp at h

/-! ## Claim theorems: the configuration -/

/-- Claim C8: loading a file over the defaults deep-merges.  Every default
key absent from the file keeps its default binding; every key bound in the
file ends up bound to the recursive merge of its default and file values
(which overwrites whenever the two are not both dicts, and merges unknown
keys in); and concretely, loading a file that sets only `logging.level` to
`DEBUG` yields the defaults with exactly that one nested value changed. -/
theorem C8_deep_merge :
    (∀ user k, k ∉ user.map Prod.fst →
        lookup (load_config (some user)) k = lookup DEFAULT_CONFIG k) ∧
    (∀ user k v, (user.map Prod.fst).Nodup → (k, v) ∈ user →
        lookup (load_config (some user)) k =
          some (mergeVal (lookup DEFAULT_CONFIG k) v)) ∧
    load_config (some [("logging", JValue.obj [("level", JValue.str "DEBUG")])]) =
      [("api_key", JValue.str ""),
       ("push_to_talk_key", JValue.str "ctrl"),
       ("preview_mode", JValue.bool true),
       ("auto_punctuation", JValue.bool true),
       ("model", JValue.str "nova-3-medical"),
       ("language", JValue.str "en-US"),
       ("save_transcriptions", JValue.bool false),
       ("transcription_folder", JValue.str "./transcriptions"),
       ("sound_feedback", JValue.bool true),
       ("min_recording_duration", JValue.num (1/2)),
       ("max_recording_duration", JValue.num 300),
       ("logging", JValue.obj
         [("enabled", JValue.bool false),
          ("level", JValue.str "DEBUG"),
          ("file", JValue.str "./logs/dictation.log"),
          ("max_size_mb", JValue.num 10),
          ("keep_days", JValue.num 7),
          ("console_output", JValue.bool false),
          ("privacy_mode", JValue.bool true)])] :=
  ⟨fun user k h => lookup_deepUpdateObj_not_mem user DEFAULT_CONFIG k h,
   fun user k v hnd hmem => lookup_deepUpdateObj_mem user DEFAULT_CONFIG k v hnd hmem,
   rfl⟩

/-- Witness for claim C8: a file overriding only `model` leaves `language`
at its default and rebinds `model` to the file's value. -/
theorem C8_deep_merge_witness :
    lookup (load_config (some [("model", JValue.str "base")])) "language" =
      lookup DEFAULT_CONFIG "language" ∧
    lookup (load_config (some [("model", JValue.str "base")])) "model" =
      some (mergeVal (lookup DEFAULT_CONFIG "model") (JValue.str "base")) :=
  ⟨C8_deep_merge.1 [("model", JValue.str "base")] "language" (by decide),
   C8_deep_merge.2.1 [("model", JValue.str "base")] "model" (JValue.str "base")
     (by simp) (List.mem_singleton.mpr rfl)⟩

/-- Claim C10: along any dotted key whose intermediate components are each
absent or bound to dicts, `set` succeeds (creating the missing intermediate
dicts) and an immediate `get` of the same key returns the assigned value,
whatever default is supplied. -/
theorem C10_set_get_roundtrip (config : List (String × JValue)) (key : String)
    (v default : JValue) (h : pathOk config (splitDots key) = true) :
    ∃ config', ConfigManager.set config key v = some config' ∧
      ConfigManager.get config' key default = v := by
  obtain ⟨d', h1, h2⟩ := setPath_getPath (splitDots key) config v h
  exact ⟨d', h1, by simp [ConfigManager.get, h2]⟩

/-- Witness for claim C10: setting a two-component dotted key in an empty
configuration and reading it back returns the assigned value. -/
theorem C10_set_get_roundtrip_witness :
    ∃ config', ConfigManager.set [] "deepgram.model" (JValue.str "nova-3") = some config' ∧
      ConfigManager.get config' "deepgram.model" JValue.null = JValue.str "nova-3" :=
  C10_set_get_roundtrip [] "deepgram.model" (JValue.str "nova-3") JValue.null rfl

end DgSpeech
